import Mathlib

/-!
Verification of the custom Python code in the openvino_notebooks repository:
the grammar notebook's sentence splitting/correction loop, the POT
`Accuracy` metric and `CifarDataLoader` adapters, the speech notebook's
`torch_infer` / `ov_infer` functions and `LibriSpeechDataLoader`, and the
KiTS19 `DataModule.setup` train/val/test index partition.

Python floats are modelled as exact rationals (ℚ), Python lists as Lean
lists, raised exceptions as `Except`/`Option` error values, and external
library objects (HuggingFace pipelines, the tokenizer/processor, numpy
conversion, file paths) as oracle function parameters.
-/

namespace Grammar

/-- The character class `[A-Z]` of the Python regex (ASCII uppercase). -/
def isUpperAZ (c : Char) : Bool := 'A' ≤ c && c ≤ 'Z'

/-- The fixed-width lookbehind `(?<=[^A-Z].[.?])` of the sentence-splitting
regex, checked against the reversed prefix of the text before the current
position: the previous char must be `.` or `?`, the one before it anything
but a newline (regex `.`), and the one before that not an ASCII uppercase
letter. -/
def lookbehindOk (prev : List Char) : Bool :=
  match prev with
  | p1 :: p2 :: p3 :: _ =>
      (p1 = '.' || p1 = '?') && !(p2 = '\n') && !(isUpperAZ p3)
  | _ => false

/-- Whether a match of `(?<=[^A-Z].[.?]) +(?=[A-Z])` starts at the current
position: the lookbehind holds, there is a nonempty run of spaces, and the
first character after that run is an ASCII uppercase letter (the greedy
` +` can only succeed on the whole run, since a space is never uppercase). -/
def matchHere (prev rest : List Char) : Bool :=
  lookbehindOk prev &&
    (let sp := rest.takeWhile (fun c => c = ' ')
     decide (0 < sp.length) &&
       (match rest.drop sp.length with
        | c :: _ => isUpperAZ c
        | [] => false))

/-- Scanner for `re.split(r"(?<=[^A-Z].[.?]) +(?=[A-Z])", text)`.
`skipping` is true while consuming the spaces of a match (the delimiter is
dropped from the output), `prev` is the reversed list of characters already
consumed (for the lookbehind), `cur` the reversed current segment. -/
def splitGo (skipping : Bool) (prev cur : List Char) : List Char → List (List Char)
  | [] => [cur.reverse]
  | c :: rs =>
      if skipping then
        if c = ' ' then splitGo true (c :: prev) cur rs
        else splitGo false (c :: prev) (c :: cur) rs
      else
        if matchHere prev (c :: rs) then
          cur.reverse :: splitGo true (c :: prev) [] rs
        else
          splitGo false (c :: prev) (c :: cur) rs

/-- `re.split(r"(?<=[^A-Z].[.?]) +(?=[A-Z])", text)`: the list of sentences
of the grammar notebook's `split_text`. -/
def reSplit (text : String) : List String :=
  (splitGo false [] [] text.data).map (fun l => String.mk l)

/-- The batching loop of `split_text`: each sentence is appended to
`temp_batch`; the batch is flushed when `len(temp_batch) >= 2 and
len(temp_batch) <= 3` or the sentence equals `sentences[-1]` (`lastS`).
Any unflushed batch left at the end of the loop is discarded, exactly as in
the Python code (which returns only `sentence_batches`). -/
def batchGo (lastS : String) (temp : List String) : List String → List (List String)
  | [] => []
  | s :: rest =>
      let temp2 := temp ++ [s]
      if (2 ≤ temp2.length ∧ temp2.length ≤ 3) ∨ s = lastS then
        temp2 :: batchGo lastS [] rest
      else
        batchGo lastS temp2 rest

/-- `split_text(text)` from the grammar notebook: regex sentence split
followed by the batching loop (`sentences[-1]` is the last sentence; the
regex split never returns an empty list). -/
def split_text (text : String) : List (List String) :=
  let sentences := reSplit text
  batchGo (sentences.getLastD "") [] sentences

/-- `correct_text(text, checker, corrector, separator)` from the grammar
notebook. `checker raw` stands for `(checker(raw)[0]["label"],
checker(raw)[0]["score"])` of the text-classification pipeline and
`corrector raw` for `corrector(raw)[0]["generated_text"]` of the
text-generation pipeline, both treated as oracle functions. -/
def correct_text (text : String) (checker : String → String × ℚ)
    (corrector : String → String) (separator : String) : String :=
  let sentence_batches := split_text text
  let corrected_text := sentence_batches.map (fun batch =>
    let raw_text := String.intercalate " " batch
    let results := checker raw_text
    if results.1 ≠ "LABEL_1" ∨ (results.1 = "LABEL_1" ∧ results.2 < 9/10) then
      corrector raw_text
    else
      raw_text)
  String.intercalate separator corrected_text

end Grammar

namespace POT

/-- State of the `Accuracy(Metric)` class: the constructor argument
`top_k` and the accumulated list `self._matches` (one match list per
successful `update` call). Scores are modelled as exact rationals. -/
structure AccuracyState where
  top_k : Nat
  _matches : List (List ℚ)
deriving DecidableEq, Repr

/-- `Accuracy.__init__(top_k)`: stores `top_k` and starts with an empty
matches list. -/
def Accuracy.init (top_k : Nat) : AccuracyState := ⟨top_k, []⟩

/-- `'accuracy@top{}'.format(top_k)`: the metric's name. -/
def accName (top_k : Nat) : String := "accuracy@top" ++ toString top_k

/-- Stable insertion into a list of indices sorted ascending by `key`
(a new index goes after indices with an equal key). -/
def insertAsc (key : Nat → ℚ) (i : Nat) : List Nat → List Nat
  | [] => [i]
  | j :: js => if key i ≤ key j then i :: j :: js else j :: insertAsc key i js

/-- `np.argsort(row)`: the indices of `row` sorted ascending by value
(modelled as a stable sort; numpy's default quicksort fixes no order
between equal values, and the claims do not depend on tie order). -/
def argsortRow (row : List ℚ) : List Nat :=
  (List.range row.length).foldr (insertAsc (fun i => row.getD i 0)) []

/-- The slice `a[-top_k:]` of a Python list: the last `top_k` elements,
the whole list when `top_k = 0` (Python `[-0:]` is `[0:]`) or when
`top_k` exceeds the length. -/
def lastK (top_k : Nat) (a : List Nat) : List Nat :=
  if top_k = 0 then a else a.drop (a.length - top_k)

/-- The list comprehension
`[float(t in predictions[i]) for i, t in enumerate(target)]`:
`i` counts from `i0`, and `predictions[i]` raises `IndexError` when `i`
is out of range. -/
def matchIndGo (predictions : List (List Nat)) (i0 : Nat) :
    List Nat → Except String (List ℚ)
  | [] => .ok []
  | t :: ts =>
      match predictions.get? i0 with
      | none => .error "IndexError: list index out of range"
      | some p =>
          (matchIndGo predictions (i0 + 1) ts).map
            (fun rest => (if t ∈ p then (1 : ℚ) else 0) :: rest)

/-- `Accuracy.update(output, target)`. `output` is the list of model
outputs (each a samples × classes matrix), `target` the list of target
labels (the `isinstance(target, dict)` branch only converts a dict to its
value list, so targets are modelled as a list directly). Returns the
state after the call together with `some message` when the call raises
(the explicit `Exception` for multiple outputs, or the `IndexError` from
`output[0]` / `predictions[i]`); every raise happens before
`self._matches.append`, so the state returned on error is the input
state. -/
def Accuracy.update (st : AccuracyState) (output : List (List (List ℚ)))
    (target : List Nat) : AccuracyState × Option String :=
  if output.length > 1 then
    (st, some "The accuracy metric cannot be calculated for a model with multiple outputs")
  else
    match output with
    | [] => (st, some "IndexError: list index out of range")
    | out0 :: _ =>
        let predictions := out0.map (fun row => lastK st.top_k (argsortRow row))
        match matchIndGo predictions 0 target with
        | .error e => (st, some e)
        | .ok m => ({ st with _matches := st._matches ++ [m] }, none)

/-- `Accuracy.value`: `{self._name: self._matches[-1]}`; `[-1]` raises
`IndexError` on an empty list. -/
def Accuracy.value (st : AccuracyState) : Except String (String × List ℚ) :=
  match st._matches.getLast? with
  | none => .error "IndexError: list index out of range"
  | some m => .ok (accName st.top_k, m)

/-- `Accuracy.avg_value`: `{self._name: np.ravel(self._matches).mean()}`.
`np.ravel` first builds an array from the accumulated match lists: when
they all have equal length this is a 2-D float array, `ravel` flattens it
and `mean` is the sum of the flattened values over their count; when the
lists are ragged (updates with different target lengths), numpy raises —
`ValueError` on array creation in current numpy, `TypeError` from
`.mean()` on the object array of lists in older versions — modelled as an
error. (On an empty flattened array numpy yields NaN with a warning, not
an exception; the claims only concern nonempty accumulations.) -/
def Accuracy.avg_value (st : AccuracyState) : Except String (String × ℚ) :=
  if ∀ m ∈ st._matches, m.length = (st._matches.headD []).length then
    let flat := st._matches.flatten
    .ok (accName st.top_k, flat.sum / (flat.length : ℚ))
  else .error "ValueError: inhomogeneous shape"

/-- `Accuracy.reset()`: empties the collected matches. -/
def Accuracy.reset (st : AccuracyState) : AccuracyState :=
  { st with _matches := [] }

/-- Runs a sequence of `update` calls from a starting state; `some st'`
when every call succeeds (raises nothing), `none` otherwise. -/
def runUpdates (st : AccuracyState) :
    List (List (List (List ℚ)) × List Nat) → Option AccuracyState
  | [] => some st
  | (o, t) :: rest =>
      match Accuracy.update st o t with
      | (st2, none) => runUpdates st2 rest
      | (_, some _) => none

/-- One indicator per target label, the `i`-th being 1 when that label is
in `preds[i]` (out-of-range rows count as empty; successful updates never
reach that case). -/
def indicatorsGo (preds : List (List Nat)) (i0 : Nat) : List Nat → List ℚ
  | [] => []
  | t :: ts =>
      (if t ∈ preds.getD i0 [] then (1 : ℚ) else 0) :: indicatorsGo preds (i0 + 1) ts

/-- The per-sample match indicators of one `update` input, written as the
spec describes them: for the `i`-th target label `t`, the indicator is 1
when `t` is among the top-`k` predicted class indices (ascending argsort,
last `k`) of row `i` of `output[0]`, and 0 otherwise. -/
def indicatorsOf (top_k : Nat) (output : List (List (List ℚ)))
    (target : List Nat) : List ℚ :=
  indicatorsGo ((output.headD []).map (fun row => lastK top_k (argsortRow row))) 0 target

end POT

namespace Cifar

/-- `CifarDataLoader.__len__`: `len(self.dataset)`. The wrapped CIFAR10
dataset is modelled as a list of `(image, label)` pairs. -/
def cifar_len {Image : Type} (dataset : List (Image × Nat)) : Nat :=
  dataset.length

/-- `CifarDataLoader.__getitem__(index)`: `image, label = self.dataset[index];
return (index, label), image.numpy()`. `toNumpy` is the oracle for
`.numpy()`; an out-of-range index raises `IndexError` (`none`). -/
def cifar_getitem {Image Arr : Type} (toNumpy : Image → Arr)
    (dataset : List (Image × Nat)) (index : Nat) :
    Option ((Nat × Nat) × Arr) :=
  match dataset.get? index with
  | none => none
  | some (image, label) => some ((index, label), toNumpy image)

end Cifar

namespace Speech

/-- `np.argmax(row)` / `torch.argmax(row)` along one axis: the index of
the first occurrence of the maximal value (both libraries return the
first maximal index). `cur` is the running best index, `bv` its value,
`i` the index of the head of the remaining list. -/
def argmaxGo (i cur : Nat) (bv : ℚ) : List ℚ → Nat
  | [] => cur
  | x :: xs => if bv < x then argmaxGo (i + 1) i x xs else argmaxGo (i + 1) cur bv xs

/-- Argmax of one row (vocabulary axis); 0 on an empty row (both numpy
and torch reject an empty reduction axis, and the inference functions are
only compared on equal logits, where the convention cancels out). -/
def argmaxRow (row : List ℚ) : Nat :=
  match row with
  | [] => 0
  | x :: xs => argmaxGo 1 0 x xs

/-- `argmax(logits, axis=-1)` on a (batch × time × vocab) logits tensor,
modelled as a nested list: one predicted token id per time step. -/
def argmaxLast (logits : List (List (List ℚ))) : List (List Nat) :=
  logits.map (fun seq => seq.map argmaxRow)

/-- `torch_infer(model, sample)` from the speech notebook:
`logits = model(torch.Tensor(sample['input_values'])).logits`, then
`torch.argmax(logits, dim=-1)`, then `processor.batch_decode`.
`ptModel` is the oracle taking a sample to the PyTorch logits and
`batch_decode` the oracle for the processor's decoding. -/
def torch_infer {S : Type} (ptModel : S → List (List (List ℚ)))
    (batch_decode : List (List Nat) → List String) (sample : S) : List String :=
  let logits := ptModel sample
  let predicted_ids := argmaxLast logits
  batch_decode predicted_ids

/-- `ov_infer(model, sample)` from the speech notebook:
`logits = model(np.array(sample['input_values']))[output]`, then
`np.argmax(logits, axis=-1)`, then `processor.batch_decode` on the ids.
`ovModel` is the oracle taking a sample to the compiled model's logits
output. -/
def ov_infer {S : Type} (ovModel : S → List (List (List ℚ)))
    (batch_decode : List (List Nat) → List String) (sample : S) : List String :=
  let logits := ovModel sample
  let predicted_ids := argmaxLast logits
  batch_decode predicted_ids

/-- One LibriSpeech sample: its `input_values` and its `text`. -/
structure Sample where
  input_values : List ℚ
  text : String

/-- State of `LibriSpeechDataLoader`: the wrapped dataset `self._ds` and
`self.sample_limit`. -/
structure LibriLoader where
  _ds : List Sample
  sample_limit : Option Nat

/-- `LibriSpeechDataLoader.__init__(dataset, sample_limit=None)`: the
body executes `self._ds = dataset; self.sample_limit = None`, storing
`None` regardless of the `sample_limit` argument. -/
def LibriLoader.init (dataset : List Sample) (sample_limit : Option Nat) :
    LibriLoader :=
  { _ds := dataset, sample_limit := none }

/-- `LibriSpeechDataLoader.__len__`: `self.sample_limit or len(self._ds)`;
Python `or` falls through on the falsy values `None` and `0`. -/
def LibriLoader.len (l : LibriLoader) : Nat :=
  match l.sample_limit with
  | none => l._ds.length
  | some n => if n = 0 then l._ds.length else n

/-- `LibriSpeechDataLoader.__getitem__(index)`: raises `StopIteration`
when `self.sample_limit is not None and index >= self.sample_limit`,
otherwise returns `({'inputs': np.array(sample['input_values'])},
[sample['text']])` for `sample = self._ds[index]` (an out-of-range index
raises `IndexError` from the dataset access). -/
def LibriLoader.getitem (l : LibriLoader) (index : Nat) :
    Except String (List ℚ × List String) :=
  match l.sample_limit with
  | some lim =>
      if index ≥ lim then .error "StopIteration"
      else
        match l._ds.get? index with
        | none => .error "IndexError: list index out of range"
        | some sample => .ok (sample.input_values, [sample.text])
  | none =>
      match l._ds.get? index with
      | none => .error "IndexError: list index out of range"
      | some sample => .ok (sample.input_values, [sample.text])

end Speech

namespace KiTS

/-- `val_indices` from `DataModule.setup`. -/
def val_indices : List Nat :=
  [7, 10, 14, 15, 30, 60, 71, 74, 75, 81, 92, 93,
   106, 115, 117, 119, 134, 161, 192, 196, 203]

/-- `test_indices` from `DataModule.setup`. -/
def test_indices : List Nat := [2, 5, 37, 103, 174]

/-- `train_indices = set(list(range(210))) - set(val_indices) -
set(test_indices)` (listed in ascending order; the Python value is a
set). -/
def train_indices : List Nat :=
  (List.range 210).filter (fun i => i ∉ val_indices ∧ i ∉ test_indices)

/-- `f"case_{i:05d}"`: zero-pads the decimal representation to width 5. -/
def caseName (i : Nat) : String :=
  let s := toString i
  "case_" ++ String.mk (List.replicate (5 - s.length) '0') ++ s

/-- `val_cases` from `DataModule.setup`. -/
def val_cases : List String := val_indices.map caseName

/-- `train_cases` from `DataModule.setup`. -/
def train_cases : List String := train_indices.map caseName

/-- `train_segs = [seg for seg in segs if Path(seg).parents[1].name in
train_cases]`; `caseOf` is the oracle for `Path(seg).parents[1].name`. -/
def train_segs (caseOf : String → String) (segs : List String) : List String :=
  segs.filter (fun s => caseOf s ∈ train_cases)

/-- `val_segs = [seg for seg in segs if Path(seg).parents[1].name in
val_cases]`. -/
def val_segs (caseOf : String → String) (segs : List String) : List String :=
  segs.filter (fun s => caseOf s ∈ val_cases)

end KiTS

namespace Grammar

theorem splitGo_ne_nil (rest : List Char) :
    ∀ (skipping : Bool) (prev cur : List Char), splitGo skipping prev cur rest ≠ [] := by
  induction rest with
  | nil => intro skipping prev cur; simp [splitGo]
  | cons c rs ih =>
      intro skipping prev cur
      simp only [splitGo]
      split
      · split
        · exact ih true (c :: prev) cur
        · exact ih false (c :: prev) (c :: cur)
      · split
        · simp
        · exact ih false (c :: prev) (c :: cur)

theorem reSplit_ne_nil (text : String) : reSplit text ≠ [] := by
  unfold reSplit
  intro h
  exact splitGo_ne_nil text.data false [] [] (List.map_eq_nil_iff.mp h)

theorem batchGo_cons (lastS : String) (temp : List String) (s : String)
    (rest : List String) :
    batchGo lastS temp (s :: rest) =
      if (2 ≤ (temp ++ [s]).length ∧ (temp ++ [s]).length ≤ 3) ∨ s = lastS then
        (temp ++ [s]) :: batchGo lastS [] rest
      else batchGo lastS (temp ++ [s]) rest := rfl

theorem batchGo_flatten (lastS : String) :
    ∀ (rest temp : List String), rest.getLast? = some lastS →
      (batchGo lastS temp rest).flatten = temp ++ rest := by
  intro rest
  induction rest with
  | nil => intro temp h; simp at h
  | cons s rs ih =>
      intro temp h
      cases rs with
      | nil =>
          have hs : s = lastS := by simpa using h
          rw [batchGo_cons, if_pos (Or.inr hs)]
          simp [batchGo]
      | cons r rs' =>
          have h' : (r :: rs').getLast? = some lastS := by
            rw [List.getLast?_cons_cons] at h; exact h
          by_cases hc : (2 ≤ (temp ++ [s]).length ∧ (temp ++ [s]).length ≤ 3) ∨ s = lastS
          · rw [batchGo_cons, if_pos hc, List.flatten_cons, ih [] h']
            simp
          · rw [batchGo_cons, if_neg hc, ih (temp ++ [s]) h']
            simp

theorem batchGo_sizes (lastS : String) :
    ∀ (rest temp : List String), temp.length ≤ 1 →
      ∀ b ∈ batchGo lastS temp rest, b.length = 1 ∨ b.length = 2 := by
  intro rest
  induction rest with
  | nil => intro temp _ b hb; simp [batchGo] at hb
  | cons s rs ih =>
      intro temp htemp b hb
      rw [batchGo_cons] at hb
      by_cases hc : (2 ≤ (temp ++ [s]).length ∧ (temp ++ [s]).length ≤ 3) ∨ s = lastS
      · rw [if_pos hc] at hb
        rcases List.mem_cons.mp hb with hb | hb
        · subst hb
          have : (temp ++ [s]).length = temp.length + 1 := by simp
          omega
        · exact ih [] (by simp) b hb
      · rw [if_neg hc] at hb
        have hlen : temp.length = 0 := by
          by_contra h0
          have h1 : temp.length = 1 := by omega
          exact hc (Or.inl (by simp [h1]))
        exact ih (temp ++ [s]) (by simp [hlen]) b hb

/-- C2: for every input text, concatenating in order the batches returned
by `split_text text` yields exactly the list of sentences produced by
splitting `text` with the regex `(?<=[^A-Z].[.?]) +(?=[A-Z])` (`reSplit`);
the batching loop drops, duplicates and reorders no sentence. -/
theorem split_text_flatten (text : String) :
    (split_text text).flatten = reSplit text := by
  unfold split_text
  apply batchGo_flatten
  cases hx : (reSplit text).getLast? with
  | none => exact absurd (List.getLast?_eq_none_iff.mp hx) (reSplit_ne_nil text)
  | some v => simp [List.getLastD_eq_getLast?, hx]

/-- C9: every batch returned by `split_text` contains exactly one or two
sentences (flushed at two sentences, or early when the current sentence
equals the last sentence of the text): never three, never zero. -/
theorem split_text_batch_sizes (text : String) (b : List String)
    (hb : b ∈ split_text text) : b.length = 1 ∨ b.length = 2 :=
  batchGo_sizes _ _ [] (by simp) b hb

theorem split_text_batch_sizes_witness :
    ["Gh"] ∈ split_text "ab. Cd ef. Gh" ∧
      ((["Gh"] : List String).length = 1 ∨ (["Gh"] : List String).length = 2) :=
  ⟨by decide, split_text_batch_sizes "ab. Cd ef. Gh" ["Gh"] (by decide)⟩

theorem ite_check (label : String) (score : ℚ) (a b : String) :
    (if label ≠ "LABEL_1" ∨ (label = "LABEL_1" ∧ score < 9/10) then a else b) =
      (if label = "LABEL_1" ∧ 9/10 ≤ score then b else a) := by
  by_cases h1 : label = "LABEL_1"
  · by_cases h2 : score < 9/10
    · rw [if_pos (Or.inr ⟨h1, h2⟩),
        if_neg (fun hx => absurd hx.2 (not_le.mpr h2))]
    · rw [if_neg (fun hx => hx.elim (fun hne => hne h1) (fun hand => h2 hand.2)),
        if_pos ⟨h1, not_lt.mp h2⟩]
  · rw [if_pos (Or.inl h1), if_neg (fun hx => h1 hx.1)]

/-- C1: `correct_text text checker corrector separator` is the
separator-join, in batch order, of one output string per batch of
`split_text text`: the raw batch text (space-join of the batch) is kept
exactly when the checker returns label `LABEL_1` with score ≥ 0.9 on it,
and otherwise the corrector's generated text for it. -/
theorem correct_text_spec (text : String) (checker : String → String × ℚ)
    (corrector : String → String) (separator : String) :
    correct_text text checker corrector separator =
      String.intercalate separator ((split_text text).map (fun batch =>
        let raw := String.intercalate " " batch
        if (checker raw).1 = "LABEL_1" ∧ 9/10 ≤ (checker raw).2 then raw
        else corrector raw)) :=
  congrArg (String.intercalate separator)
    (List.map_congr_left (fun batch _ =>
      ite_check (checker (String.intercalate " " batch)).1
        (checker (String.intercalate " " batch)).2
        (corrector (String.intercalate " " batch))
        (String.intercalate " " batch)))

end Grammar

namespace POT

theorem matchIndGo_ok (preds : List (List Nat)) :
    ∀ (ts : List Nat) (i0 : Nat), i0 + ts.length ≤ preds.length →
      matchIndGo preds i0 ts = .ok (indicatorsGo preds i0 ts) := by
  intro ts
  induction ts with
  | nil => intro i0 h; rfl
  | cons t ts' ih =>
      intro i0 h
      have hi : i0 < preds.length := by
        simp only [List.length_cons] at h; omega
      rw [matchIndGo, List.get?_eq_get hi,
        ih (i0 + 1) (by simp only [List.length_cons] at h; omega)]
      rw [indicatorsGo]
      have hd : preds.getD i0 [] = preds.get ⟨i0, hi⟩ := by
        rw [List.getD_eq_getElem?_getD, List.getElem?_eq_getElem hi]; rfl
      rw [hd]
      rfl

theorem matchIndGo_ok_eq (preds : List (List Nat)) :
    ∀ (ts : List Nat) (i0 : Nat) (m : List ℚ),
      matchIndGo preds i0 ts = .ok m → m = indicatorsGo preds i0 ts := by
  intro ts
  induction ts with
  | nil =>
      intro i0 m h
      simp only [matchIndGo, Except.ok.injEq] at h
      rw [← h]; rfl
  | cons t ts' ih =>
      intro i0 m h
      rw [matchIndGo] at h
      cases hg : preds.get? i0 with
      | none => rw [hg] at h; exact absurd h (by simp)
      | some p =>
          rw [hg] at h
          cases hr : matchIndGo preds (i0 + 1) ts' with
          | error e => rw [hr] at h; exact absurd h (by simp [Except.map])
          | ok m' =>
              rw [hr] at h
              simp only [Except.map, Except.ok.injEq] at h
              have hd : preds.getD i0 [] = p := by
                have := List.get?_eq_getElem? preds i0
                rw [List.getD_eq_getElem?_getD, ← this, hg]; rfl
              rw [indicatorsGo, hd, ← ih (i0 + 1) m' hr, ← h]

theorem update_ok (st : AccuracyState) (output : List (List (List ℚ)))
    (target : List Nat) (st2 : AccuracyState)
    (h : Accuracy.update st output target = (st2, none)) :
    st2 = { st with
            _matches := st._matches ++ [indicatorsOf st.top_k output target] } := by
  unfold Accuracy.update at h
  split at h
  · exact absurd (congrArg Prod.snd h) (by simp)
  · cases output with
    | nil => exact absurd (congrArg Prod.snd h) (by simp)
    | cons out0 rest =>
        simp only at h
        cases hm : matchIndGo (out0.map fun row => lastK st.top_k (argsortRow row))
            0 target with
        | error e => rw [hm] at h; exact absurd (congrArg Prod.snd h) (by simp)
        | ok m =>
            rw [hm] at h
            have hst : st2 = { st with _matches := st._matches ++ [m] } :=
              (congrArg Prod.fst h).symm
            rw [hst, matchIndGo_ok_eq _ target 0 m hm]
            rfl

theorem runUpdates_matches :
    ∀ (pairs : List (List (List (List ℚ)) × List Nat)) (st st' : AccuracyState),
      runUpdates st pairs = some st' →
      st'.top_k = st.top_k ∧
        st'._matches =
          st._matches ++ pairs.map (fun p => indicatorsOf st.top_k p.1 p.2) := by
  intro pairs
  induction pairs with
  | nil =>
      intro st st' h
      simp only [runUpdates, Option.some.injEq] at h
      rw [← h]; simp
  | cons p rest ih =>
      intro st st' h
      obtain ⟨o, t⟩ := p
      rw [runUpdates] at h
      cases hupd : Accuracy.update st o t with
      | mk st2 err =>
          rw [hupd] at h
          cases err with
          | some e => exact absurd h (by simp)
          | none =>
              simp only at h
              have hst2 := update_ok st o t st2 hupd
              obtain ⟨htk, hmat⟩ := ih st2 st' h
              rw [hst2] at htk hmat
              refine ⟨htk, ?_⟩
              simp only at htk hmat
              rw [hmat, List.map_cons]
              simp [List.append_assoc]

/-- C3 counterexample: on an empty output list, `Accuracy.update` raises
(the `IndexError` from `output[0]`) even though `len(output) > 1` is
false, so "raises if and only if the output list contains more than one
element" fails as stated. -/
theorem accuracy_update_empty_output_raises :
    (Accuracy.update (Accuracy.init 1) [] []).2.isSome = true ∧
      ¬ (([] : List (List (List ℚ))).length > 1) := by
  constructor
  · rfl
  · decide

/-- C3 (amended): provided the target list is no longer than the batch
dimension of `output[0]`, `Accuracy.update` raises an exception if and
only if the output list does not contain exactly one element (the
explicit `Exception` when it has more than one, the `IndexError` from
`output[0]` when it is empty), and whenever it raises the accumulated
matches are left unchanged (the raise happens before the append). -/
theorem accuracy_update_raises_iff (st : AccuracyState)
    (output : List (List (List ℚ))) (target : List Nat)
    (h : target.length ≤ (output.headD []).length) :
    ((Accuracy.update st output target).2.isSome ↔ output.length ≠ 1) ∧
      ((Accuracy.update st output target).2.isSome →
        (Accuracy.update st output target).1 = st) := by
  cases output with
  | nil =>
      refine ⟨⟨fun _ => by simp, fun _ => rfl⟩, fun _ => rfl⟩
  | cons out0 rest =>
      cases rest with
      | nil =>
          have hok : matchIndGo (out0.map fun row => lastK st.top_k (argsortRow row))
              0 target = .ok (indicatorsGo
                (out0.map fun row => lastK st.top_k (argsortRow row)) 0 target) := by
            apply matchIndGo_ok
            simpa using h
          constructor
          · constructor
            · intro hsome
              exact absurd hsome (by
                unfold Accuracy.update
                rw [if_neg (by simp)]
                simp only [hok]
                simp)
            · intro hne; exact (hne (by simp)).elim
          · intro hsome
            exact absurd hsome (by
              unfold Accuracy.update
              rw [if_neg (by simp)]
              simp only [hok]
              simp)
      | cons o1 orest =>
          have hupd : Accuracy.update st (out0 :: o1 :: orest) target =
              (st, some "The accuracy metric cannot be calculated for a model with multiple outputs") := by
            unfold Accuracy.update
            rw [if_pos (by simp)]
          rw [hupd]
          exact ⟨⟨fun _ => by simp, fun _ => rfl⟩, fun _ => rfl⟩

theorem accuracy_update_raises_iff_witness :
    (([0] : List Nat).length ≤ (([[[ (1:ℚ), 2 ]]] : List (List (List ℚ))).headD []).length) ∧
      (((Accuracy.update (Accuracy.init 1) [[[ (1:ℚ), 2 ]]] [0]).2.isSome ↔
          ([[[ (1:ℚ), 2 ]]] : List (List (List ℚ))).length ≠ 1) ∧
        ((Accuracy.update (Accuracy.init 1) [[[ (1:ℚ), 2 ]]] [0]).2.isSome →
          (Accuracy.update (Accuracy.init 1) [[[ (1:ℚ), 2 ]]] [0]).1 = Accuracy.init 1)) :=
  ⟨by decide, accuracy_update_raises_iff (Accuracy.init 1) [[[ (1:ℚ), 2 ]]] [0] (by decide)⟩

theorem indicatorsGo_length (preds : List (List Nat)) :
    ∀ (ts : List Nat) (i0 : Nat), (indicatorsGo preds i0 ts).length = ts.length := by
  intro ts
  induction ts with
  | nil => intro i0; rfl
  | cons t ts' ih => intro i0; simp [indicatorsGo, ih]

/-- C4 counterexample: two successful `update` calls with target lists of
different lengths leave a ragged `self._matches` (here `[[1,1],[1]]`), on
which `np.ravel(...).mean()` raises instead of returning the flat mean,
so `avg_value` does not return the arithmetic mean for every sequence of
successful updates. -/
theorem accuracy_avg_value_ragged_raises :
    runUpdates (Accuracy.init 1)
        [([[[1, 2], [3, 1]]], [1, 0]), ([[[1, 2]]], [1])] =
        some ⟨1, [[1, 1], [1]]⟩ ∧
      Accuracy.avg_value ⟨1, [[1, 1], [1]]⟩ =
        .error "ValueError: inhomogeneous shape" :=
  ⟨by decide, rfl⟩

/-- C4 (amended): after any sequence of successful `update` calls from a
fresh (or freshly reset) state whose target lists all have equal length
(so the accumulated matches form a rectangular array rather than a
ragged one, on which numpy's ravel/mean raises), `avg_value` returns,
under the metric's name, the arithmetic mean of all per-sample match
indicators of those updates (1 when the target label is among the top-k
predicted class indices of that sample's output, 0 otherwise), and
`reset` empties the accumulated matches. The nonemptiness hypothesis
excludes the zero-sample case, where numpy's mean of an empty array is
NaN. -/
theorem accuracy_avg_value_spec (top_k : Nat)
    (pairs : List (List (List (List ℚ)) × List Nat)) (st' : AccuracyState)
    (h : runUpdates (Accuracy.init top_k) pairs = some st')
    (heq : ∀ p ∈ pairs, ∀ q ∈ pairs, p.2.length = q.2.length)
    (hne : (pairs.map (fun p => indicatorsOf top_k p.1 p.2)).flatten ≠ []) :
    Accuracy.avg_value st' =
      .ok (accName top_k,
        (pairs.map (fun p => indicatorsOf top_k p.1 p.2)).flatten.sum /
          (((pairs.map (fun p => indicatorsOf top_k p.1 p.2)).flatten.length : ℚ))) ∧
      (Accuracy.reset st')._matches = [] := by
  obtain ⟨htk, hm⟩ := runUpdates_matches pairs (Accuracy.init top_k) st' h
  simp only [Accuracy.init, List.nil_append] at hm
  have hu : ∀ m ∈ st'._matches, m.length = (st'._matches.headD []).length := by
    rw [hm]
    cases pairs with
    | nil => intro m hmem; exact absurd hmem (by simp)
    | cons p0 rest =>
        intro m hmem
        obtain ⟨p, hp, hpm⟩ := List.mem_map.mp hmem
        rw [← hpm]
        have hhead : (((p0 :: rest).map
            (fun p => indicatorsOf top_k p.1 p.2)).headD []) =
              indicatorsOf top_k p0.1 p0.2 := rfl
        rw [hhead]
        unfold indicatorsOf
        rw [indicatorsGo_length, indicatorsGo_length]
        exact heq p hp p0 (by simp)
  constructor
  · unfold Accuracy.avg_value
    rw [if_pos hu, hm, htk]
    rfl
  · rfl

theorem accuracy_avg_value_spec_witness :
    runUpdates (Accuracy.init 1) [([[[1, 2], [3, 1]]], [1, 0])] =
        some ⟨1, [[1, 1]]⟩ ∧
      (∀ p ∈ [([[[(1:ℚ), 2], [3, 1]]], [1, 0])], ∀ q ∈ [([[[(1:ℚ), 2], [3, 1]]], [1, 0])],
        p.2.length = q.2.length) ∧
      (([([[[(1:ℚ), 2], [3, 1]]], [1, 0])].map
          (fun p => indicatorsOf 1 p.1 p.2)).flatten ≠ []) ∧
      (Accuracy.avg_value ⟨1, [[1, 1]]⟩ =
        .ok (accName 1,
          ([([[[(1:ℚ), 2], [3, 1]]], [1, 0])].map
              (fun p => indicatorsOf 1 p.1 p.2)).flatten.sum /
            ((([([[[(1:ℚ), 2], [3, 1]]], [1, 0])].map
                (fun p => indicatorsOf 1 p.1 p.2)).flatten.length : ℚ))) ∧
        (Accuracy.reset ⟨1, [[1, 1]]⟩)._matches = []) :=
  ⟨by decide, by decide, by decide,
    accuracy_avg_value_spec 1 [([[[1, 2], [3, 1]]], [1, 0])] ⟨1, [[1, 1]]⟩
      (by decide) (by decide) (by decide)⟩

/-- C7: after a successful `update` call (at least one update since
construction or the last `reset`), `value` returns, under the metric's
name, exactly the match list produced by that most recent update — the
last element appended to `self._matches`. -/
theorem accuracy_value_last (st : AccuracyState)
    (output : List (List (List ℚ))) (target : List Nat) (st2 : AccuracyState)
    (h : Accuracy.update st output target = (st2, none)) :
    Accuracy.value st2 = .ok (accName st.top_k, indicatorsOf st.top_k output target) := by
  rw [update_ok st output target st2 h]
  unfold Accuracy.value
  rw [List.getLast?_concat]

theorem accuracy_value_last_witness :
    Accuracy.update (Accuracy.init 1) [[[1, 2], [3, 1]]] [1, 0] =
        (⟨1, [[1, 1]]⟩, none) ∧
      Accuracy.value ⟨1, [[1, 1]]⟩ =
        .ok (accName 1, indicatorsOf 1 [[[(1:ℚ), 2], [3, 1]]] [1, 0]) :=
  ⟨by decide,
    accuracy_value_last (Accuracy.init 1) [[[1, 2], [3, 1]]] [1, 0] ⟨1, [[1, 1]]⟩
      (by decide)⟩

end POT

namespace Cifar

/-- C5: for every index valid in the wrapped dataset,
`CifarDataLoader.__getitem__(index)` returns `((index, label), image_array)`
where `(image, label) = dataset[index]` and `image_array` is the image's
numpy conversion, with no further transformation, and
`CifarDataLoader.__len__()` equals `len(dataset)`. -/
theorem cifar_adapter_spec {Image Arr : Type} (toNumpy : Image → Arr)
    (dataset : List (Image × Nat)) (index : Nat) (h : index < dataset.length) :
    cifar_getitem toNumpy dataset index =
        some ((index, (dataset.get ⟨index, h⟩).2),
          toNumpy (dataset.get ⟨index, h⟩).1) ∧
      cifar_len dataset = dataset.length := by
  constructor
  · unfold cifar_getitem
    rw [List.get?_eq_get h]
  · rfl

theorem cifar_adapter_spec_witness :
    0 < ([((5 : Nat), (3 : Nat))] : List (Nat × Nat)).length ∧
      (cifar_getitem (fun i => i + 100) [((5 : Nat), (3 : Nat))] 0 =
          some ((0, ([((5 : Nat), (3 : Nat))].get
              ⟨0, by decide⟩).2),
            (([((5 : Nat), (3 : Nat))].get ⟨0, by decide⟩).1 + 100)) ∧
        cifar_len [((5 : Nat), (3 : Nat))] = [((5 : Nat), (3 : Nat))].length) :=
  ⟨by decide,
    cifar_adapter_spec (fun i => i + 100) [((5 : Nat), (3 : Nat))] 0 (by decide)⟩

end Cifar

namespace Speech

/-- C6: whenever the PyTorch model and the compiled OpenVINO model produce
equal logits tensors for a sample's `input_values`, `torch_infer` and
`ov_infer` return the same transcription: both take the argmax of the
logits over the last axis and decode the token ids with the same
processor (decoding treated as an oracle). -/
theorem infer_agree {S : Type} (ptModel ovModel : S → List (List (List ℚ)))
    (batch_decode : List (List Nat) → List String) (sample : S)
    (h : ptModel sample = ovModel sample) :
    torch_infer ptModel batch_decode sample =
      ov_infer ovModel batch_decode sample := by
  unfold torch_infer ov_infer
  rw [h]

theorem infer_agree_witness :
    (fun _ : Unit => [[[(1 : ℚ), 2]]]) () = (fun _ : Unit => [[[(1 : ℚ), 2]]]) () ∧
      torch_infer (fun _ : Unit => [[[(1 : ℚ), 2]]])
          (fun ids => ids.map (fun l => toString l.sum)) () =
        ov_infer (fun _ : Unit => [[[(1 : ℚ), 2]]])
          (fun ids => ids.map (fun l => toString l.sum)) () :=
  ⟨rfl,
    infer_agree (fun _ : Unit => [[[(1 : ℚ), 2]]]) (fun _ : Unit => [[[(1 : ℚ), 2]]])
      (fun ids => ids.map (fun l => toString l.sum)) () rfl⟩

/-- C8: whatever value is passed as the `sample_limit` constructor
argument, the constructor stores `None` in `self.sample_limit`, so
`LibriSpeechDataLoader.__len__()` returns `len(dataset)` and
`__getitem__(index)` never raises `StopIteration` for an index valid in
the dataset — it returns the sample's inputs and label. -/
theorem libri_loader_ignores_limit (dataset : List Sample)
    (arg : Option Nat) (index : Nat) (h : index < dataset.length) :
    (LibriLoader.init dataset arg).len = dataset.length ∧
      (LibriLoader.init dataset arg).getitem index =
        .ok ((dataset.get ⟨index, h⟩).input_values,
          [(dataset.get ⟨index, h⟩).text]) := by
  constructor
  · rfl
  · unfold LibriLoader.getitem LibriLoader.init
    simp only
    rw [List.get?_eq_get h]

theorem libri_loader_ignores_limit_witness :
    0 < ([⟨[(1 : ℚ)], "hi"⟩] : List Sample).length ∧
      ((LibriLoader.init [⟨[(1 : ℚ)], "hi"⟩] (some 0)).len =
          ([⟨[(1 : ℚ)], "hi"⟩] : List Sample).length ∧
        (LibriLoader.init [⟨[(1 : ℚ)], "hi"⟩] (some 0)).getitem 0 =
          .ok ((([⟨[(1 : ℚ)], "hi"⟩] : List Sample).get ⟨0, by decide⟩).input_values,
            [(([⟨[(1 : ℚ)], "hi"⟩] : List Sample).get ⟨0, by decide⟩).text])) :=
  ⟨by decide,
    libri_loader_ignores_limit [⟨[(1 : ℚ)], "hi"⟩] (some 0) 0 (by decide)⟩

end Speech

namespace KiTS

set_option maxRecDepth 4000 in
/-- C10: the 21 validation case indices, the 5 test case indices and the
computed training case indices of `DataModule.setup` are pairwise
disjoint and together cover exactly `{0, ..., 209}`; consequently no
KiTS19 case contributes segmentation frames to both the training and the
validation dataset. -/
theorem kits_partition :
    (∀ i : Nat,
        (i ∈ train_indices ∨ i ∈ val_indices ∨ i ∈ test_indices) ↔
          i ∈ List.range 210) ∧
      (∀ i ∈ train_indices, i ∉ val_indices) ∧
      (∀ i ∈ train_indices, i ∉ test_indices) ∧
      (∀ i ∈ val_indices, i ∉ test_indices) ∧
      (∀ (caseOf : String → String) (segs : List String) (s : String),
        s ∈ train_segs caseOf segs → s ∉ val_segs caseOf segs) := by
  have hval210 : ∀ i ∈ val_indices, i < 210 := by decide
  have htest210 : ∀ i ∈ test_indices, i < 210 := by decide
  have hvt : ∀ i ∈ val_indices, i ∉ test_indices := by decide
  have hcases : ∀ c ∈ train_cases, c ∉ val_cases := by decide
  refine ⟨?_, ?_, ?_, hvt, ?_⟩
  · intro i
    constructor
    · rintro (h | h | h)
      · exact (List.mem_filter.mp h).1
      · exact List.mem_range.mpr (hval210 i h)
      · exact List.mem_range.mpr (htest210 i h)
    · intro hr
      by_cases hv : i ∈ val_indices
      · exact Or.inr (Or.inl hv)
      · by_cases ht : i ∈ test_indices
        · exact Or.inr (Or.inr ht)
        · exact Or.inl (List.mem_filter.mpr ⟨hr, by
            simp only [decide_eq_true_eq]
            exact ⟨hv, ht⟩⟩)
  · intro i h
    exact ((decide_eq_true_eq.mp (List.mem_filter.mp h).2).1)
  · intro i h
    exact ((decide_eq_true_eq.mp (List.mem_filter.mp h).2).2)
  · intro caseOf segs s h1 h2
    have hc1 := decide_eq_true_eq.mp (List.mem_filter.mp h1).2
    have hc2 := decide_eq_true_eq.mp (List.mem_filter.mp h2).2
    exact hcases (caseOf s) hc1 hc2

theorem kits_partition_witness : (7 : Nat) ∈ List.range 210 :=
  (kits_partition.1 7).mp (Or.inr (Or.inl (by decide)))

end KiTS
